import Mathlib

/-!
Verification of the launcher's resumable installation/update orchestrator
(`native-engine/launcher`): the pipeline state machine, the self-updater,
and the sync engine, shallowly embedded from the Rust sources.

Filesystems are modelled as partial maps from path strings to byte lists;
network and filesystem failures that the code observes as `Result` errors
are supplied by explicit oracle values.
-/

/-! ## Pipeline state machine (`state_machine.rs`) -/

/-- The `LauncherState` enum of `state_machine.rs`. -/
inductive LauncherState where
  | Init
  | SelfUpdate
  | DependencyAudit
  | Sync
  | Build
  | Launch
  | Complete
  | Failed
deriving DecidableEq

/-- The string `format!("{:?}", state)` produces for each variant
(the derived `Debug` name, written under the `"state"` key by `save_state`). -/
def LauncherState.debugName : LauncherState → String
  | .Init => "Init"
  | .SelfUpdate => "SelfUpdate"
  | .DependencyAudit => "DependencyAudit"
  | .Sync => "Sync"
  | .Build => "Build"
  | .Launch => "Launch"
  | .Complete => "Complete"
  | .Failed => "Failed"

/-- `LauncherState::next` from `state_machine.rs`. -/
def LauncherState.next : LauncherState → Option LauncherState
  | .Init => some .SelfUpdate
  | .SelfUpdate => some .DependencyAudit
  | .DependencyAudit => some .Sync
  | .Sync => some .Build
  | .Build => some .Launch
  | .Launch => some .Complete
  | .Complete => none
  | .Failed => none

/-- The string match in `StateMachine::load_state` mapping the `"state"`
field back to a `LauncherState` (unknown strings give `None`). -/
def loadStateOfString : String → Option LauncherState
  | "Init" => some .Init
  | "SelfUpdate" => some .SelfUpdate
  | "DependencyAudit" => some .DependencyAudit
  | "Sync" => some .Sync
  | "Build" => some .Build
  | "Launch" => some .Launch
  | "Complete" => some .Complete
  | "Failed" => some .Failed
  | _ => none

/-- `StateMachine` of `state_machine.rs`. `state_file` models the contents of
the `"state"` key of `launcher_state.json`: `none` when the file is absent or
unreadable/unparsable. -/
structure StateMachine where
  current_state : LauncherState
  state_file : Option String
deriving DecidableEq

/-- `StateMachine::load_state`: read the stage file and decode the `"state"`
string; any failure yields `none`. -/
def load_state (file : Option String) : Option LauncherState :=
  file.bind loadStateOfString

/-- `StateMachine::new`: load the persisted state, defaulting to `Init`
(`load_state(..).unwrap_or(LauncherState::Init)`). -/
def StateMachine.new (file : Option String) : StateMachine :=
  { current_state := (load_state file).getD .Init, state_file := file }

/-- `StateMachine::save_state`: write the current state's `Debug` name under
the `"state"` key of the stage file. -/
def StateMachine.save_state (m : StateMachine) : StateMachine :=
  { m with state_file := some m.current_state.debugName }

/-- `StateMachine::transition`: advance to `next()`, persist it and return it,
or return `none` when there is no successor. -/
def StateMachine.transition (m : StateMachine) : StateMachine × Option LauncherState :=
  match m.current_state.next with
  | some n => (StateMachine.save_state { m with current_state := n }, some n)
  | none => (m, none)

/-- `StateMachine::fail`: persist `Failed`. -/
def StateMachine.fail (m : StateMachine) : StateMachine :=
  StateMachine.save_state { m with current_state := .Failed }

/-- `StateMachine::reset`: persist `Init`. -/
def StateMachine.reset (m : StateMachine) : StateMachine :=
  StateMachine.save_state { m with current_state := .Init }

/-- `StateMachine::clear_saved_state`: delete the stage file. -/
def StateMachine.clear_saved_state (m : StateMachine) : StateMachine :=
  { m with state_file := none }

/-! ## The driving loop of `main.rs::run`

Each loop iteration runs the action of the current stage.  An action either
succeeds (`ok`), returns an error (`err`), or the process dies while the
action is still in progress (`crash`); the list of outcomes is the oracle
consumed one element per executed action. -/

/-- Outcome of executing one stage's action in `main.rs::run`. -/
inductive Outcome where
  | ok
  | err
  | crash
deriving DecidableEq

/-- How one invocation of `run` ends.  `finished` is the `break` path
(stage file cleared, `Ok(())`); `failed` is an action error (`fail()`
persisted `Failed`, `Err` returned); `crashed m s` is a process death while
stage `s`'s action was in progress, leaving machine state `m` on disk;
`outOfFuel` means the outcome oracle was exhausted. -/
inductive RunResult where
  | finished (m : StateMachine)
  | failed (m : StateMachine)
  | crashed (m : StateMachine) (stage : LauncherState)
  | outOfFuel (m : StateMachine)
deriving DecidableEq

/-- The `LauncherState::Failed` arm of the loop in `main.rs::run`:
`reset()` and continue. -/
def handleFailed (m : StateMachine) : StateMachine :=
  if m.current_state = .Failed then m.reset else m

/-- The `loop` of `main.rs::run`: dispatch on the current stage, run its
action, `transition()` on success, `fail()` on error; `Complete` breaks and
the stage file is cleared. -/
def runLoop : List Outcome → StateMachine → RunResult
  | [], m =>
    if (handleFailed m).current_state = .Complete then
      .finished (handleFailed m).clear_saved_state
    else .outOfFuel (handleFailed m)
  | o :: rest, m =>
    if (handleFailed m).current_state = .Complete then
      .finished (handleFailed m).clear_saved_state
    else
      match o with
      | .crash => .crashed (handleFailed m) (handleFailed m).current_state
      | .err => .failed (handleFailed m).fail
      | .ok =>
        match (handleFailed m).transition with
        | (m2, some _) => runLoop rest m2
        | (m2, none) => .finished m2.clear_saved_state

/-- One invocation of `main.rs::run`: construct the machine from the stage
file, reset if the loaded stage is `Complete`, then drive the loop. -/
def runInvocation (outcomes : List Outcome) (file : Option String) : RunResult :=
  runLoop outcomes
    (if (StateMachine.new file).current_state = .Complete then (StateMachine.new file).reset
     else StateMachine.new file)

/-- Recovery invariant of the driving loop: constructing a fresh
`StateMachine` from the machine's own persisted stage file yields the
machine's current stage again. -/
def reloadsCurrent (m : StateMachine) : Prop :=
  (StateMachine.new m.state_file).current_state = m.current_state

deriving instance DecidableEq for Except

/-! ## Self-updater (`updater.rs`) -/

/-- Result of an HTTP request as the code observes it: the `send().await`
either fails to connect, or yields a response with a success flag
(`status().is_success()`) and a body. -/
inductive NetResult (α : Type) where
  | failure (msg : String)
  | response (statusSuccess : Bool) (body : α)
deriving DecidableEq

/-- The deserialized body of `GET /sync/launcher-version`
(`VersionResponse` in `updater.rs`): `checksum` is nullable. -/
structure VersionResponse where
  version : String
  checksum : Option String
deriving DecidableEq

/-- `UpdateInfo` of `updater.rs`: the update descriptor. -/
structure UpdateInfo where
  version : String
  checksum : String
deriving DecidableEq

/-- `config::LAUNCHER_VERSION`. -/
def LAUNCHER_VERSION : String := "1.0.0"

/-- `Updater::check_for_update`, with the HTTP exchange supplied as an
oracle.  The response body is the result of `response.json()`
(`Except.error` = deserialization failure). -/
def check_for_update (resp : NetResult (Except String VersionResponse)) :
    Except String (Option UpdateInfo) :=
  match resp with
  | .failure e => .error e
  | .response statusSuccess body =>
    if statusSuccess = false then .ok none
    else
      match body with
      | .error e => .error e
      | .ok version_info =>
        if version_info.version ≠ LAUNCHER_VERSION then
          match version_info.checksum with
          | none => .error "Server did not provide checksum for update - refusing to update"
          | some checksum => .ok (some { version := version_info.version, checksum })
        else .ok none

/-! ## Filesystem model

A flat map from paths to file contents (byte lists); `none` means the path
holds no file.  Directories are not files, so directory-existence checks in
the code are modelled as separate Boolean inputs. -/

/-- Flat filesystem: path string to file bytes. -/
def Fs : Type := String → Option (List Nat)

/-- `std::fs::write`. -/
def writeFile (fs : Fs) (p0 : String) (c : List Nat) : Fs :=
  fun p => if p = p0 then some c else fs p

/-- `std::fs::remove_file`. -/
def removeFile (fs : Fs) (p0 : String) : Fs :=
  fun p => if p = p0 then none else fs p

/-- `std::fs::rename src dst` (when it succeeds). -/
def renameFile (fs : Fs) (src dst : String) : Fs :=
  fun p => if p = dst then fs src else if p = src then none else fs p

/-- Rust's `Path::with_extension("old")` used by `apply_update` to compute the
backup path: the text after the last dot of the path is replaced by `old`
(appended if there is no dot). -/
def withExtensionOld (p : String) : String :=
  let cs := p.data
  let stem := if '.' ∈ cs then ((cs.reverse.dropWhile (· ≠ '.')).drop 1).reverse else cs
  String.mk stem ++ ".old"

/-- Which of `apply_update`'s filesystem calls succeed: the backup rename
(current executable to `.old`), the swap rename (temp file to target), the
rollback rename (`.old` back to target), and the backup cleanup removal. -/
structure FsOracle where
  rename1Ok : Bool
  rename2Ok : Bool
  rollbackOk : Bool
  removeBackupOk : Bool
deriving DecidableEq

/-- `Updater::apply_update`: rename target to backup, rename temp into
target; on success best-effort delete the backup, on failure best-effort
rename the backup back and return the error.  A rename succeeds when its
oracle flag is set and its source exists.  Returns the resulting filesystem
together with the `Result`. -/
def apply_update (o : FsOracle) (fs : Fs) (temp target : String) :
    Fs × Except String Unit :=
  let backup := withExtensionOld target
  if (fs target).isSome ∧ o.rename1Ok = false then
    (fs, .error "Failed to backup current launcher")
  else
    let fs1 := if (fs target).isSome then renameFile fs target backup else fs
    if o.rename2Ok ∧ (fs1 temp).isSome then
      let fs2 := renameFile fs1 temp target
      let fs3 :=
        if (fs2 backup).isSome then
          if o.removeBackupOk then removeFile fs2 backup else fs2
        else fs2
      (fs3, .ok ())
    else
      let fs3 :=
        if (fs1 backup).isSome ∧ o.rollbackOk then renameFile fs1 backup target
        else fs1
      (fs3, .error "Failed to apply update")

/-! ## Sync engine (`sync.rs`) -/

/-- `FileInfo` of `sync.rs`: one manifest entry's expected checksum and
size. -/
structure FileInfo where
  checksum : String
  size : Nat
deriving DecidableEq

/-- The content hash the code computes with SHA-256 over file bytes
(`hex::encode(Sha256::digest(bytes))`), kept abstract: any function from
byte lists to hex strings. -/
def HashFn : Type := List Nat → String

/-- `engine_dir().join(path)` for a manifest path (non-Windows
normalization is the identity). -/
def localPathOf (remotePath : String) : String :=
  "engine/" ++ remotePath

/-- Whether a path lies under the engine directory (used to model
`remove_dir_all(engine_dir)`). -/
def isEnginePath (p : String) : Bool :=
  "engine/".data.isPrefixOf p.data

/-- `SyncManager::file_needs_sync`: absent means sync; size mismatch means
sync; only when the sizes match is the checksum compared. -/
def file_needs_sync (hash : HashFn) (fs : Fs) (localPath : String) (info : FileInfo) : Bool :=
  match fs localPath with
  | none => true
  | some bytes =>
    if bytes.length ≠ info.size then true
    else hash bytes != info.checksum

/-- `SyncManager::download_file`: fetch the file body, recompute its
checksum over the received bytes, compare with the manifest entry, and only
then write the bytes to the local path; any failure leaves the filesystem
untouched and returns the error. -/
def download_file (hash : HashFn) (net : String → NetResult (List Nat))
    (fs : Fs) (remotePath localPath : String) (info : FileInfo) :
    Fs × Except String Unit :=
  match net remotePath with
  | .failure e => (fs, .error e)
  | .response statusSuccess bytes =>
    if statusSuccess = false then
      (fs, .error ("Failed to download " ++ remotePath))
    else
      let checksum := hash bytes
      if checksum != info.checksum then
        (fs, .error ("Checksum mismatch for " ++ remotePath))
      else
        (writeFile fs localPath bytes, .ok ())

/-- The `for (file_path, info) in &manifest.files` loop of
`SyncManager::sync_files`, carrying the synced-file counter.  A failing
download aborts the whole pass with its error. -/
def syncLoop (hash : HashFn) (net : String → NetResult (List Nat)) :
    List (String × FileInfo) → Fs → Nat → Fs × Except String Nat
  | [], fs, n => (fs, .ok n)
  | (path, info) :: rest, fs, n =>
    let lp := localPathOf path
    if file_needs_sync hash fs lp info then
      match download_file hash net fs path lp info with
      | (fs1, .ok _) => syncLoop hash net rest fs1 (n + 1)
      | (fs1, .error e) => (fs1, .error e)
    else
      syncLoop hash net rest fs n

/-- `SyncManager::sync_files`: classify every manifest entry and download
exactly those that need sync, returning the count. -/
def sync_files (hash : HashFn) (net : String → NetResult (List Nat))
    (manifestFiles : List (String × FileInfo)) (fs : Fs) : Fs × Except String Nat :=
  syncLoop hash net manifestFiles fs 0

/-- `remove_dir_all(engine_dir)` (when it succeeds): every file under the
engine directory is gone. -/
def clearEngineTree (fs : Fs) : Fs :=
  fun p => if isEnginePath p then none else fs p

/-- `zip::ZipArchive::extract(engine_dir)`: write every archive entry at its
path under the engine directory, over whatever is already there. -/
def extractArchive (entries : List (String × List Nat)) (fs : Fs) : Fs :=
  entries.foldl (fun acc ent => writeFile acc (localPathOf ent.1) ent.2) fs

/-- `SyncManager::download_full_archive`: if the engine directory exists,
try to remove it, warn and continue on failure; then download `full.zip`
and extract it into the engine directory.  `engineDirExists` is the
`engine_dir.exists()` check, `removeOk` whether `remove_dir_all` succeeds,
and `dl` the archive fetch (its body the list of zip entries).  The
temporary `engine.zip` file is written and removed again, so it is elided
from the resulting filesystem. -/
def download_full_archive (engineDirExists removeOk : Bool)
    (dl : NetResult (List (String × List Nat))) (fs : Fs) : Fs × Except String Unit :=
  let fs1 :=
    if engineDirExists then
      if removeOk then clearEngineTree fs else fs
    else fs
  match dl with
  | .failure e => (fs1, .error e)
  | .response statusSuccess entries =>
    if statusSuccess = false then (fs1, .error "Archive download failed")
    else (extractArchive entries fs1, .ok ())

/-- `main.rs::run_sync`: check the server, take the full-archive path when
the local engine tree is absent or empty, otherwise fetch the manifest and
sync file-by-file — degrading to the full-archive path when the manifest
fetch fails.  `serverCheck` is the `check_server()` outcome, `dirCount` the
`read_dir(engine_dir).count()` value. -/
def run_sync (hash : HashFn) (serverCheck : Except String String)
    (engineDirExists : Bool) (dirCount : Nat)
    (manifestFetch : Except String (List (String × FileInfo)))
    (net : String → NetResult (List Nat))
    (removeOk : Bool) (dl : NetResult (List (String × List Nat)))
    (fs : Fs) : Fs × Except String Unit :=
  match serverCheck with
  | .error e => (fs, .error e)
  | .ok _ =>
    if engineDirExists = false ∨ dirCount = 0 then
      download_full_archive engineDirExists removeOk dl fs
    else
      match manifestFetch with
      | .ok manifestFiles =>
        match sync_files hash net manifestFiles fs with
        | (fs1, .ok _) => (fs1, .ok ())
        | (fs1, .error e) => (fs1, .error e)
      | .error _ => download_full_archive engineDirExists removeOk dl fs

/-! ## Theorems -/

/-- C5: from each of `Init`, `SelfUpdate`, `DependencyAudit`, `Sync`,
`Build`, `Launch`, a single `transition()` yields exactly the defined
successor in the order `Init, SelfUpdate, DependencyAudit, Sync, Build,
Launch, Complete`; from `Complete` it yields `none`. -/
theorem transition_follows_stage_order (f : Option String) :
    (StateMachine.transition ⟨.Init, f⟩).2 = some .SelfUpdate ∧
    (StateMachine.transition ⟨.SelfUpdate, f⟩).2 = some .DependencyAudit ∧
    (StateMachine.transition ⟨.DependencyAudit, f⟩).2 = some .Sync ∧
    (StateMachine.transition ⟨.Sync, f⟩).2 = some .Build ∧
    (StateMachine.transition ⟨.Build, f⟩).2 = some .Launch ∧
    (StateMachine.transition ⟨.Launch, f⟩).2 = some .Complete ∧
    (StateMachine.transition ⟨.Complete, f⟩).2 = none :=
  ⟨rfl, rfl, rfl, rfl, rfl, rfl, rfl⟩

/-- C10: persisting any stage via `save_state` (the `Debug` name under the
`"state"` key) and reading it back via `load_state` yields that stage:
the serialization round-trips exactly, for every variant. -/
theorem save_load_state_roundtrip (s : LauncherState) (f : Option String) :
    load_state (StateMachine.save_state ⟨s, f⟩).state_file = some s := by
  cases s <;> rfl

/-- C9: a version-endpoint response with a non-success HTTP status makes
`check_for_update` return `Ok(None)` — treated as "no update", not
surfaced as an error — whatever the response body holds. -/
theorem check_for_update_http_failure_is_no_update
    (body : Except String VersionResponse) :
    check_for_update (.response false body) = .ok none := rfl

/-- C2 counterexample: a successfully parsed response carrying version
`"2.0.0"` (different from the running `1.0.0`) and a null checksum makes
`check_for_update` return an error — it does not return `Ok(None)` as the
claim states. -/
theorem check_for_update_null_checksum_not_ok_none :
    check_for_update (.response true (.ok ⟨"2.0.0", none⟩)) =
      .error "Server did not provide checksum for update - refusing to update" ∧
    check_for_update (.response true (.ok ⟨"2.0.0", none⟩)) ≠
      .ok none := by
  constructor
  · rfl
  · decide

/-- C2 (amended): a version-endpoint response whose version differs from
the running launcher version but whose checksum field is null makes
`check_for_update` return an error ("refusing to update"): no update
descriptor is produced and no unverified update proceeds. -/
theorem check_for_update_null_checksum_refuses (vi : VersionResponse)
    (hv : vi.version ≠ LAUNCHER_VERSION) (hc : vi.checksum = none) :
    check_for_update (.response true (.ok vi)) =
      .error "Server did not provide checksum for update - refusing to update" := by
  obtain ⟨v, c⟩ := vi
  subst hc
  simp only [check_for_update]
  simp [hv]

/-- Witness for `check_for_update_null_checksum_refuses` at the concrete
response `{version := "1.0.1", checksum := null}`. -/
theorem check_for_update_null_checksum_refuses_witness :
    check_for_update (.response true (.ok ⟨"1.0.1", none⟩)) =
      .error "Server did not provide checksum for update - refusing to update" :=
  check_for_update_null_checksum_refuses ⟨"1.0.1", none⟩ (by decide) rfl

/-- C6: `file_needs_sync` reports a manifest entry in sync (`false`) iff the
local file is present, its size equals the manifest size, and its content
checksum equals the manifest checksum; equivalently it marks the entry as
needing sync iff the file is absent, or the size differs, or (sizes equal)
the checksum differs. -/
theorem file_needs_sync_iff_size_and_checksum (hash : HashFn) (fs : Fs)
    (lp : String) (info : FileInfo) :
    file_needs_sync hash fs lp info = false ↔
      ∃ bytes, fs lp = some bytes ∧ bytes.length = info.size ∧
        hash bytes = info.checksum := by
  cases h : fs lp with
  | none => simp [file_needs_sync, h]
  | some bytes =>
    by_cases hs : bytes.length = info.size
    · simp [file_needs_sync, h, hs]
    · simp [file_needs_sync, h, hs]

/-- The `Debug` name of every stage decodes back to the same stage. -/
theorem debugName_roundtrip (s : LauncherState) :
    loadStateOfString s.debugName = some s := by
  cases s <;> rfl

/-- Any `save_state` establishes the recovery invariant. -/
theorem reloadsCurrent_save_state (m : StateMachine) :
    reloadsCurrent m.save_state := by
  show (StateMachine.new (some m.current_state.debugName)).current_state = m.current_state
  simp [StateMachine.new, load_state, debugName_roundtrip]

/-- A successful `transition()` hands back a machine satisfying the
recovery invariant. -/
theorem reloadsCurrent_transition (m m2 : StateMachine) (n : LauncherState)
    (h : m.transition = (m2, some n)) : reloadsCurrent m2 := by
  unfold StateMachine.transition at h
  cases hn : m.current_state.next with
  | some k =>
    rw [hn] at h
    injection h with h1 h2
    exact h1 ▸ reloadsCurrent_save_state _
  | none =>
    rw [hn] at h
    injection h with h1 h2
    exact Option.noConfusion h2

/-- The `Failed`-arm reset preserves the recovery invariant. -/
theorem reloadsCurrent_handleFailed (m : StateMachine) (hm : reloadsCurrent m) :
    reloadsCurrent (handleFailed m) := by
  unfold handleFailed
  split
  · exact reloadsCurrent_save_state _
  · exact hm

/-- If the driving loop crashes while stage `s`'s action is in progress,
the machine left on disk has `s` as its current stage and still satisfies
the recovery invariant. -/
theorem runLoop_crash_reloads (outs : List Outcome) :
    ∀ (m m' : StateMachine) (s : LauncherState), reloadsCurrent m →
      runLoop outs m = .crashed m' s →
      m'.current_state = s ∧ reloadsCurrent m' := by
  induction outs with
  | nil =>
    intro m m' s _ h
    unfold runLoop at h
    split at h <;> exact RunResult.noConfusion h
  | cons o rest ih =>
    intro m m' s hm h
    have hm1 : reloadsCurrent (handleFailed m) := reloadsCurrent_handleFailed m hm
    unfold runLoop at h
    split at h
    · exact RunResult.noConfusion h
    · cases o with
      | crash =>
        injection h with h1 h2
        exact ⟨h1 ▸ h2, h1 ▸ hm1⟩
      | err => exact RunResult.noConfusion h
      | ok =>
        rcases ht : (handleFailed m).transition with ⟨m2, res⟩
        rw [ht] at h
        cases res with
        | some n => exact ih m2 m' s (reloadsCurrent_transition _ _ _ ht) h
        | none => exact RunResult.noConfusion h

/-- C1 (amended): whenever an invocation of the driving loop crashes while
stage `s`'s action is in progress, the machine state left on disk records
`s` (the in-progress stage, i.e. the successor of the last successfully
completed stage), so a re-invocation reloads exactly `s` and re-runs the
interrupted stage rather than skipping it. -/
theorem crash_resumes_interrupted_stage (outcomes : List Outcome)
    (file : Option String) (m : StateMachine) (s : LauncherState)
    (h : runInvocation outcomes file = .crashed m s) :
    m.current_state = s ∧ (StateMachine.new m.state_file).current_state = s := by
  unfold runInvocation at h
  have h0 : reloadsCurrent (StateMachine.new file) := rfl
  have h1 : reloadsCurrent
      (if (StateMachine.new file).current_state = .Complete then (StateMachine.new file).reset
       else StateMachine.new file) := by
    split
    · exact reloadsCurrent_save_state _
    · exact h0
  obtain ⟨he, hw⟩ := runLoop_crash_reloads outcomes _ m s h1 h
  exact ⟨he, he ▸ hw⟩

/-- Witness for `crash_resumes_interrupted_stage`: on a fresh install, the
trace "Init succeeds, then the process dies during SelfUpdate" leaves a
stage file that reloads to `SelfUpdate`. -/
theorem crash_resumes_interrupted_stage_witness :
    (⟨.SelfUpdate, some "SelfUpdate"⟩ : StateMachine).current_state = .SelfUpdate ∧
    (StateMachine.new (⟨.SelfUpdate, some "SelfUpdate"⟩ : StateMachine).state_file).current_state =
      .SelfUpdate :=
  crash_resumes_interrupted_stage [.ok, .crash] none
    ⟨.SelfUpdate, some "SelfUpdate"⟩ .SelfUpdate (by decide)

/-- C1 counterexample: on a fresh install, after `Init`'s action succeeds
and the process dies during `SelfUpdate`'s action, the stage file holds
`"SelfUpdate"` — the stage whose action was still in progress — and not
`"Init"`, the only stage that successfully completed in this execution.
The persisted stage is therefore not the last successfully completed
stage. -/
theorem persisted_stage_is_in_progress_stage :
    runInvocation [Outcome.ok, Outcome.crash] none =
      .crashed ⟨.SelfUpdate, some (LauncherState.debugName .SelfUpdate)⟩ .SelfUpdate ∧
    LauncherState.debugName .SelfUpdate ≠ LauncherState.debugName .Init := by
  decide

/-- C3 (amended): if `apply_update` reaches the second rename (the backup
rename succeeded) and that second rename fails, and the rollback rename
succeeds, then `apply_update` returns the error and the original executable
is still present at `target_path`.  (If the rollback rename itself also
fails — its result is ignored by the code — the target can be left
missing, so the rollback-success assumption is necessary.) -/
theorem apply_update_rollback_restores_original (o : FsOracle) (fs : Fs)
    (temp target : String) (old : List Nat)
    (htarget : fs target = some old)
    (h1 : o.rename1Ok = true) (h2 : o.rename2Ok = false)
    (h3 : o.rollbackOk = true) :
    (apply_update o fs temp target).2 = .error "Failed to apply update" ∧
    (apply_update o fs temp target).1 target = some old := by
  simp [apply_update, renameFile, h1, h2, h3, htarget]

/-- Witness for `apply_update_rollback_restores_original`: a filesystem
holding the original `app.exe` and the downloaded `up.exe`, with the second
rename forced to fail and the rollback allowed to succeed. -/
theorem apply_update_rollback_restores_original_witness :
    (apply_update ⟨true, false, true, true⟩
        (fun p => if p = "app.exe" then some [1] else if p = "up.exe" then some [2] else none)
        "up.exe" "app.exe").2 = .error "Failed to apply update" ∧
    (apply_update ⟨true, false, true, true⟩
        (fun p => if p = "app.exe" then some [1] else if p = "up.exe" then some [2] else none)
        "up.exe" "app.exe").1 "app.exe" = some [1] :=
  apply_update_rollback_restores_original ⟨true, false, true, true⟩
    (fun p => if p = "app.exe" then some [1] else if p = "up.exe" then some [2] else none)
    "up.exe" "app.exe" [1] (by decide) rfl rfl rfl

/-- C3 counterexample: when the second rename fails and the ignored
rollback rename also fails (e.g. the destination stays locked), the
original executable is gone from `target_path` — the target is left
missing, contradicting the claim that it always ends up holding either the
old or the new executable. -/
theorem apply_update_double_failure_loses_target :
    (fun p => if p = "app.exe" then some [1] else if p = "up.exe" then some [2] else none : Fs)
        "app.exe" = some [1] ∧
    (apply_update ⟨true, false, false, true⟩
        (fun p => if p = "app.exe" then some [1] else if p = "up.exe" then some [2] else none)
        "up.exe" "app.exe").2 = .error "Failed to apply update" ∧
    (apply_update ⟨true, false, false, true⟩
        (fun p => if p = "app.exe" then some [1] else if p = "up.exe" then some [2] else none)
        "up.exe" "app.exe").1 "app.exe" = none := by
  refine ⟨rfl, ?_, ?_⟩ <;> decide

/-- C7: during the `Sync` stage, when a local engine tree already exists
(non-empty directory) and the manifest fetch fails, `run_sync` does not
turn the manifest failure into a stage error: it takes exactly the
full-archive download path, and in particular succeeds whenever that
archive download succeeds. -/
theorem run_sync_manifest_failure_degrades (hash : HashFn) (sv : String)
    (dirCount : Nat) (mErr : String) (net : String → NetResult (List Nat))
    (removeOk : Bool) (dl : NetResult (List (String × List Nat))) (fs : Fs)
    (hcnt : dirCount ≠ 0) :
    run_sync hash (.ok sv) true dirCount (.error mErr) net removeOk dl fs =
      download_full_archive true removeOk dl fs ∧
    (∀ entries, dl = .response true entries →
      (run_sync hash (.ok sv) true dirCount (.error mErr) net removeOk dl fs).2 =
        .ok ()) := by
  constructor
  · simp [run_sync, hcnt]
  · intro entries hdl
    subst hdl
    simp [run_sync, hcnt, download_full_archive]

/-- Witness for `run_sync_manifest_failure_degrades`: a one-entry local
tree, a failed manifest fetch, and a successful (empty) archive download. -/
theorem run_sync_manifest_failure_degrades_witness :
    run_sync (fun _ => "") (.ok "1") true 1 (.error "HTTP 500")
        (fun _ => .failure "unused") true (.response true []) (fun _ => none) =
      download_full_archive true true (.response true []) (fun _ => none) ∧
    (∀ entries, (.response true [] : NetResult (List (String × List Nat))) =
        .response true entries →
      (run_sync (fun _ => "") (.ok "1") true 1 (.error "HTTP 500")
          (fun _ => .failure "unused") true (.response true []) (fun _ => none)).2 =
        .ok ()) :=
  run_sync_manifest_failure_degrades (fun _ => "") "1" 1 "HTTP 500"
    (fun _ => .failure "unused") true (.response true []) (fun _ => none)
    (by decide)

/-- Extraction writes only archive entries, so two base filesystems that
agree under the engine directory keep agreeing there after extraction. -/
theorem extractArchive_agree (entries : List (String × List Nat)) :
    ∀ (g g' : Fs), (∀ q, isEnginePath q = true → g q = g' q) →
      ∀ p, isEnginePath p = true →
        extractArchive entries g p = extractArchive entries g' p := by
  induction entries with
  | nil => intro g g' hg p hp; exact hg p hp
  | cons e rest ih =>
    intro g g' hg p hp
    simp only [extractArchive, List.foldl_cons]
    refine ih (writeFile g (localPathOf e.1) e.2) (writeFile g' (localPathOf e.1) e.2)
      (fun q hq => ?_) p hp
    unfold writeFile
    split
    · rfl
    · exact hg q hq

/-- C8 (amended): when the pre-existing engine tree is successfully removed
(the code only warns and continues if the removal fails), a successful
archive download makes `download_full_archive` succeed and leave, under the
engine directory, exactly the archive contents — identical to extracting
into an empty tree, with no stale file surviving. -/
theorem download_full_archive_replaces_tree (fs : Fs)
    (dl : NetResult (List (String × List Nat)))
    (entries : List (String × List Nat))
    (hdl : dl = .response true entries) :
    download_full_archive true true dl fs =
      (extractArchive entries (clearEngineTree fs), .ok ()) ∧
    ∀ p, isEnginePath p = true →
      extractArchive entries (clearEngineTree fs) p =
        extractArchive entries (fun _ => none) p := by
  subst hdl
  refine ⟨rfl, fun p hp => ?_⟩
  refine extractArchive_agree entries (clearEngineTree fs) (fun _ => none)
    (fun q hq => ?_) p hp
  simp [clearEngineTree, hq]

/-- Witness for `download_full_archive_replaces_tree`: a stale one-file
tree replaced by a one-entry archive. -/
theorem download_full_archive_replaces_tree_witness :
    download_full_archive true true (.response true [("fresh.txt", [1])])
        (fun p => if p = "engine/stale.txt" then some [9] else none) =
      (extractArchive [("fresh.txt", [1])]
        (clearEngineTree (fun p => if p = "engine/stale.txt" then some [9] else none)),
       .ok ()) ∧
    ∀ p, isEnginePath p = true →
      extractArchive [("fresh.txt", [1])]
          (clearEngineTree (fun p => if p = "engine/stale.txt" then some [9] else none)) p =
        extractArchive [("fresh.txt", [1])] (fun _ => none) p :=
  download_full_archive_replaces_tree
    (fun p => if p = "engine/stale.txt" then some [9] else none)
    (.response true [("fresh.txt", [1])]) [("fresh.txt", [1])] rfl

/-- C8 counterexample: when `remove_dir_all` fails, the code logs
"continuing anyway" and extracts over the stale tree: the archive download
still reports success, the stale file `engine/stale.txt` (not in the
archive) survives, and the archive's `engine/fresh.txt` appears next to
it — the resulting tree merges archive contents with stale files. -/
theorem download_full_archive_merges_when_clear_fails :
    (download_full_archive true false (.response true [("fresh.txt", [1])])
        (fun p => if p = "engine/stale.txt" then some [9] else none)).2 = .ok () ∧
    (download_full_archive true false (.response true [("fresh.txt", [1])])
        (fun p => if p = "engine/stale.txt" then some [9] else none)).1
      "engine/stale.txt" = some [9] ∧
    (download_full_archive true false (.response true [("fresh.txt", [1])])
        (fun p => if p = "engine/stale.txt" then some [9] else none)).1
      "engine/fresh.txt" = some [1] := by
  refine ⟨rfl, ?_, ?_⟩ <;> decide

/-- Distinct manifest paths map to distinct local paths. -/
theorem localPathOf_inj {a b : String} (h : localPathOf a = localPathOf b) :
    a = b := by
  unfold localPathOf at h
  have h2 := congrArg String.data h
  simp only [String.data_append] at h2
  exact String.ext (List.append_cancel_left h2)

/-- `download_file` either fails leaving the filesystem untouched, or
writes bytes whose recomputed checksum equals the manifest checksum. -/
theorem download_file_cases (hash : HashFn) (net : String → NetResult (List Nat))
    (fs : Fs) (rp lp : String) (info : FileInfo) :
    (∃ e, download_file hash net fs rp lp info = (fs, .error e)) ∨
    (∃ bytes, net rp = .response true bytes ∧ hash bytes = info.checksum ∧
      download_file hash net fs rp lp info = (writeFile fs lp bytes, .ok ())) := by
  unfold download_file
  cases hn : net rp with
  | failure e => exact Or.inl ⟨e, rfl⟩
  | response ok bytes =>
    cases ok with
    | false => exact Or.inl ⟨_, rfl⟩
    | true =>
      by_cases hc : hash bytes = info.checksum
      · exact Or.inr ⟨bytes, rfl, hc, by simp [hc]⟩
      · exact Or.inl ⟨"Checksum mismatch for " ++ rp, by simp [hc]⟩

/-- Walking the manifest, a reached entry whose download mis-hashes aborts
the pass with an error and never has its destination path written. -/
theorem syncLoop_checksum_gate (hash : HashFn)
    (net : String → NetResult (List Nat)) (p : String) (info : FileInfo)
    (bytes : List Nat) (hnet : net p = .response true bytes)
    (hbad : hash bytes ≠ info.checksum) :
    ∀ (entries : List (String × FileInfo)) (fs : Fs) (n : Nat),
      (entries.map Prod.fst).Nodup → (p, info) ∈ entries →
      file_needs_sync hash fs (localPathOf p) info = true →
      ∃ fs1 e, syncLoop hash net entries fs n = (fs1, .error e) ∧
        fs1 (localPathOf p) = fs (localPathOf p) := by
  intro entries
  induction entries with
  | nil => intro fs n _ hmem _; exact absurd hmem (List.not_mem_nil _)
  | cons head rest ih =>
    intro fs n hnodup hmem hneed
    obtain ⟨q, iq⟩ := head
    rcases List.mem_cons.mp hmem with heq | hmem2
    · cases heq
      refine ⟨fs, "Checksum mismatch for " ++ p, ?_, rfl⟩
      simp only [syncLoop, hneed, if_true]
      simp [download_file, hnet, hbad]
    · have hqp : q ≠ p := by
        rintro rfl
        have hp : q ∈ rest.map Prod.fst := List.mem_map.mpr ⟨(q, info), hmem2, rfl⟩
        rw [List.map_cons, List.nodup_cons] at hnodup
        exact hnodup.1 hp
      have hnodup2 : (rest.map Prod.fst).Nodup := by
        rw [List.map_cons, List.nodup_cons] at hnodup
        exact hnodup.2
      have hlp : localPathOf p ≠ localPathOf q := fun h => hqp (localPathOf_inj h).symm
      by_cases hns : file_needs_sync hash fs (localPathOf q) iq = true
      · rcases download_file_cases hash net fs q (localPathOf q) iq with
          ⟨e, hd⟩ | ⟨bts, _, _, hd⟩
        · refine ⟨fs, e, ?_, rfl⟩
          simp only [syncLoop, hns, if_true, hd]
        · have hpres : (writeFile fs (localPathOf q) bts) (localPathOf p) =
              fs (localPathOf p) := by
            simp [writeFile, hlp]
          have hneed2 : file_needs_sync hash (writeFile fs (localPathOf q) bts)
              (localPathOf p) info = true := by
            unfold file_needs_sync at hneed ⊢
            rw [hpres]
            exact hneed
          obtain ⟨fs1, e, hrun, hfs⟩ :=
            ih (writeFile fs (localPathOf q) bts) (n + 1) hnodup2 hmem2 hneed2
          refine ⟨fs1, e, ?_, by rw [hfs, hpres]⟩
          simp only [syncLoop, hns, if_true, hd]
          exact hrun
      · rw [Bool.not_eq_true] at hns
        obtain ⟨fs1, e, hrun, hfs⟩ := ih fs n hnodup2 hmem2 hneed
        refine ⟨fs1, e, ?_, hfs⟩
        simp only [syncLoop, hns, Bool.false_eq_true, if_false]
        exact hrun

/-- C4: for a manifest entry with expected checksum `C` that the sync pass
has to download, if the downloaded byte stream hashes to a value different
from `C`, then `sync_files` returns an error and the bytes are never
written to that entry's destination path (the checksum is recomputed and
compared before any write to the final path). -/
theorem sync_files_checksum_mismatch_fails (hash : HashFn)
    (net : String → NetResult (List Nat)) (entries : List (String × FileInfo))
    (fs : Fs) (p : String) (info : FileInfo) (bytes : List Nat)
    (hnodup : (entries.map Prod.fst).Nodup)
    (hmem : (p, info) ∈ entries)
    (hneed : file_needs_sync hash fs (localPathOf p) info = true)
    (hnet : net p = .response true bytes)
    (hbad : hash bytes ≠ info.checksum) :
    ∃ fs1 e, sync_files hash net entries fs = (fs1, .error e) ∧
      fs1 (localPathOf p) = fs (localPathOf p) :=
  syncLoop_checksum_gate hash net p info bytes hnet hbad entries fs 0 hnodup
    hmem hneed

/-- Witness for `sync_files_checksum_mismatch_fails`: a one-entry manifest
whose download hashes to `"dd"` instead of the expected `"c1"`, over an
empty local tree. -/
theorem sync_files_checksum_mismatch_fails_witness :
    ∃ fs1 e, sync_files (fun _ => "dd") (fun _ => .response true [7])
        [("a", ⟨"c1", 1⟩)] (fun _ => none) = (fs1, .error e) ∧
      fs1 (localPathOf "a") = none :=
  sync_files_checksum_mismatch_fails (fun _ => "dd")
    (fun _ => .response true [7]) [("a", ⟨"c1", 1⟩)] (fun _ => none)
    "a" ⟨"c1", 1⟩ [7] (by decide) (by decide) rfl rfl (by decide)
